import Mathlib

/-!
Verification of the review-pipeline repository.

The repository contains three near-identical pipeline scripts:
* the pull-request script (first half of `src/scripts/index.js`, lines
  1-287): batches PR diffs, asks a classifier per batch, evaluates rules,
  posts a review, notifies a chat webhook, and sets the process exit code;
* the repository-analysis script (second half of `src/scripts/index.js`,
  lines 287-1189): fetches a repository tree and analyzes file contents in
  batches (`analyzeCodeBatches`, `parseHumanReadableRules`);
* the GitHub-App pull-request script (`src/unnamed/part_000`): the same
  pipeline with a zero-file short-circuit (`analyzePullRequest`) and a
  rank-based quality rollup (`updateOverallCodeQuality`).

JavaScript numbers are modelled as `ℚ` (the scripts only add, multiply and
divide classifier probabilities and counts), strings as Lean `String` /
`List Char`, and the external classifier and `eval` calls as oracle
functions passed in as parameters.
-/

namespace ReviewPipeline

/-! ## JavaScript string primitives

`split`, `trim`, `startsWith`, `includes` and `join` are re-implemented on
`List Char` with structural recursion so that every definition evaluates
inside the kernel. -/

/-- Whitespace recognized by JavaScript `String.prototype.trim` (the
characters actually occurring in the repository's inputs). -/
def isJsSpace (c : Char) : Bool :=
  c = ' ' || c = '\t' || c = '\n' || c = '\r'

/-- JavaScript `trim`: strip leading and trailing whitespace. -/
def trimChars (l : List Char) : List Char :=
  ((l.dropWhile isJsSpace).reverse.dropWhile isJsSpace).reverse

/-- JavaScript `trim` on `String`. -/
def trimS (s : String) : String :=
  (trimChars s.toList).asString

/-- Worker for JavaScript `String.prototype.split` with a non-empty
separator: scan left to right, emitting the chunk collected so far (held
reversed in `acc`) whenever the separator occurs.  The `fuel` argument
makes the recursion structural; it is initialized to the input length,
which suffices because every step consumes at least one character. -/
def splitChars (sep : List Char) : Nat → List Char → List Char → List (List Char)
  | _, [], acc => [acc.reverse]
  | 0, l, acc => [acc.reverse ++ l]
  | fuel + 1, c :: rest, acc =>
    if sep.isPrefixOf (c :: rest) ∧ sep ≠ [] then
      acc.reverse :: splitChars sep fuel ((c :: rest).drop sep.length) []
    else
      splitChars sep fuel rest (c :: acc)

/-- JavaScript `String.prototype.split` with a non-empty separator. -/
def jsSplit (sep : List Char) (l : List Char) : List (List Char) :=
  splitChars sep l.length l []

/-- JavaScript `String.prototype.includes`. -/
def containsSub (sub : List Char) : List Char → Bool
  | [] => sub.isEmpty
  | c :: rest => sub.isPrefixOf (c :: rest) || containsSub sub rest

/-! ## The pull-request script (`src/scripts/index.js` lines 1-287) -/

/-- A changed-file record returned by the pull-request files API: filename,
optional diff text (`patch` is absent for binary or very large files), and
added-line count. -/
structure PRFile where
  filename : String
  patch : Option String
  additions : Nat
deriving DecidableEq

/-- JavaScript truthiness of `f.patch` at line 58 (`if (!f.patch) continue`):
a file is batched only when its patch is present and non-empty. -/
def hasPatch (f : PRFile) : Bool :=
  match f.patch with
  | none => false
  | some p => p ≠ ""

/-- Length of the file's patch text (0 when absent), the quantity
`f.patch.length` accumulated by the batching loop. -/
def patchLen (f : PRFile) : Nat :=
  (f.patch.getD "").length

/-- Character budget per classifier call (line 52). -/
def MAX_DIFF_LENGTH : Nat := 20000

/-- The batching loop of lines 57-88: files without a patch are skipped;
if appending the next file would push the running size over
`MAX_DIFF_LENGTH`, the current batch is emitted (when non-empty) and a new
one is started; the file is then always appended to the current batch.
`cur` is the current batch and `curSize` the running character count. -/
def prBatchLoop : List PRFile → List PRFile → Nat → List (List PRFile)
  | [], cur, _ => if cur.isEmpty then [] else [cur]
  | f :: rest, cur, curSize =>
    if hasPatch f then
      if MAX_DIFF_LENGTH < curSize + patchLen f then
        if cur.isEmpty then
          prBatchLoop rest (cur ++ [f]) (curSize + patchLen f)
        else
          cur :: prBatchLoop rest [f] (patchLen f)
      else
        prBatchLoop rest (cur ++ [f]) (curSize + patchLen f)
    else
      prBatchLoop rest cur curSize

/-- The batches produced by the pull-request script for a list of fetched
files (lines 53-88, starting from an empty current batch). -/
def prBatches (files : List PRFile) : List (List PRFile) :=
  prBatchLoop files [] 0

/-- Total patch size of a batch (the value tracked in `currentBatchSize`). -/
def prBatchSize (b : List PRFile) : Nat :=
  (b.map patchLen).sum

/-- Sum of `additions` over the batched files (lines 49 and 77; the
counter is updated only after the missing-patch `continue`). -/
def prLinesAdded (files : List PRFile) : Nat :=
  ((files.filter hasPatch).map fun f => f.additions).sum

/-- Test-file detection (line 78) over the batched files; the regular
expression test is abstracted as the `testRe` oracle. -/
def prTestsChanged (files : List PRFile) (testRe : String → Bool) : Bool :=
  (files.filter hasPatch).any fun f => testRe f.filename

/-- License-marker detection (lines 81-82) over the batched files' patches;
the regular expression test is abstracted as the `licRe` oracle. -/
def prLicenseComment (files : List PRFile) (licRe : String → Bool) : Bool :=
  (files.filter hasPatch).any fun f => licRe (f.patch.getD "")

/-- The classifier's structured verdict for one pull-request batch
(`report_ai_provenance`, lines 122-135). -/
structure PRVerdict where
  ai_prob : ℚ
  rationale : String

/-- The batch analysis loop of lines 96-158.  There is no try/catch around
the OpenAI call, so a failing call (the oracle returning `Except.error`)
propagates and aborts the whole run.  On success the verdict's probability
is weighted by `batches[i].length / files.length` (line 154, where
`totalFiles` is the count of all fetched files, batched or not) and a
rationale line is appended (line 155). -/
def prAnalyzeLoop (totalFiles : Nat) (oracle : Nat → Except String PRVerdict) :
    List (List PRFile) → Nat → ℚ → List String → Except String (ℚ × List String)
  | [], _, prob, rats => .ok (prob, rats)
  | b :: rest, i, prob, rats =>
    match oracle i with
    | .error e => .error e
    | .ok v =>
      prAnalyzeLoop totalFiles oracle rest (i + 1)
        (prob + v.ai_prob * ((b.length : ℚ) / (totalFiles : ℚ)))
        (rats ++ ["Batch " ++ toString (i + 1) ++ ": " ++ v.rationale])

/-- The analysis loop started on the produced batches (lines 93-96). -/
def prAnalyze (batches : List (List PRFile)) (totalFiles : Nat)
    (oracle : Nat → Except String PRVerdict) : Except String (ℚ × List String) :=
  prAnalyzeLoop totalFiles oracle batches 0 0 []

/-- A rule object built by `parseRulesFromText`; only the four fields the
script reads are modelled.  A missing field is the empty string, which also
fails the JavaScript truthiness check
`rule.name && rule.when && rule.severity && rule.message`. -/
structure JsRule where
  name : String
  when : String
  severity : String
  message : String
deriving DecidableEq

/-- One section line applied to the rule object under construction (lines
270-276): blank lines and lines starting with `#` are skipped; the key is
the text before the first `=`, the value everything after it re-joined and
trimmed; keys other than the four read fields are ignored. -/
def applyRuleLine (r : JsRule) (line : List Char) : JsRule :=
  if trimChars line ≠ [] ∧ ¬ List.isPrefixOf ['#'] line then
    match jsSplit ['='] line with
    | [] => r
    | key :: valueParts =>
      let value := (trimChars (List.intercalate ['='] valueParts)).asString
      if trimChars key = "name".toList then { r with name := value }
      else if trimChars key = "when".toList then { r with when := value }
      else if trimChars key = "severity".toList then { r with severity := value }
      else if trimChars key = "message".toList then { r with message := value }
      else r
  else r

/-- `parseRulesFromText` (lines 262-284): the chunks after each `[rule]`
marker are sections; each section's lines populate a rule, kept only when
all four fields are truthily present.  No validation of the `when` text is
performed. -/
def parseRulesFromText (text : String) : List JsRule :=
  ((jsSplit "[rule]".toList text.toList).drop 1).filterMap fun sec =>
    let ls := jsSplit ['\n'] (trimChars sec)
    let r := ls.foldl applyRuleLine ⟨"", "", "", ""⟩
    if r.name ≠ "" ∧ r.when ≠ "" ∧ r.severity ≠ "" ∧ r.message ≠ "" then some r
    else none

/-- The evaluation context built for every rule (lines 171-176). -/
structure EvalCtx where
  ai_prob : ℚ
  lines_added : Nat
  tests_changed : Bool
  license_comment : Bool

/-- The rule application loop (lines 170-181): every rule's `when` text is
handed to the JavaScript `eval` interpreter (modelled by the `ev` oracle)
together with the context in scope; a triggered rule's trimmed message goes
to `failures` when its severity is `error`, otherwise to `warnings`.  The
first component records, in order, the condition strings passed to `eval`. -/
def prRuleLoop (ctx : EvalCtx) (ev : String → EvalCtx → Bool) :
    List JsRule → List String × List String × List String
  | [] => ([], [], [])
  | r :: rest =>
    let t := ev r.when ctx
    let tail := prRuleLoop ctx ev rest
    (r.when :: tail.1,
     (if t && (r.severity == "error") then [trimS r.message] else []) ++ tail.2.1,
     (if t && !(r.severity == "error") then [trimS r.message] else []) ++ tail.2.2)

/-- JavaScript `(x).toFixed(1)` followed by `parseFloat` on the result, as
applied to the score at lines 161 and 226: the nearest multiple of 1/10,
ties rounded up. -/
def toFixed1 (q : ℚ) : ℚ :=
  (⌊q * 10 + 1 / 2⌋ : ℚ) / 10

/-- Observable outcome of one completed run of the pull-request script. -/
structure PRRun where
  batches : List (List PRFile)
  overallAiProb : ℚ
  rationales : List String
  ctx : EvalCtx
  evaluatedConds : List String
  failures : List String
  warnings : List String
  score : ℚ
  slackAttempted : Bool
  exitCode : Nat

/-- The pull-request script end to end: batch the fetched files, run the
classifier per batch (an uncaught failure aborts the run), build the rule
context, evaluate every parsed rule, round the score, decide the chat
notification (`if (parseFloat(score) > 55)`, line 226) and the exit code
(`if (failures.length) process.exit(1)`, line 287). -/
def prPipeline (files : List PRFile) (rules : List JsRule)
    (classifier : Nat → Except String PRVerdict) (ev : String → EvalCtx → Bool)
    (testRe licRe : String → Bool) : Except String PRRun :=
  let batches := prBatches files
  match prAnalyze batches files.length classifier with
  | .error e => .error e
  | .ok (prob, rats) =>
    let ctx : EvalCtx :=
      ⟨prob, prLinesAdded files, prTestsChanged files testRe, prLicenseComment files licRe⟩
    let out := prRuleLoop ctx ev rules
    let score := toFixed1 (prob * 100)
    .ok { batches := batches, overallAiProb := prob, rationales := rats, ctx := ctx,
          evaluatedConds := out.1, failures := out.2.1, warnings := out.2.2,
          score := score, slackAttempted := decide (55 < score),
          exitCode := if out.2.1.isEmpty then 0 else 1 }

/-- The completed run extracted from the pipeline, with an inert fallback
for aborted runs (used to state concrete instances of theorems about
completed runs). -/
def prRunOf (files : List PRFile) (rules : List JsRule)
    (classifier : Nat → Except String PRVerdict) (ev : String → EvalCtx → Bool)
    (testRe licRe : String → Bool) : PRRun :=
  match prPipeline files rules classifier ev testRe licRe with
  | .ok r => r
  | .error _ => ⟨[], 0, [], ⟨0, 0, false, false⟩, [], [], [], 0, false, 0⟩

/-! ## The repository-analysis script (`src/scripts/index.js` lines 287-1189) -/

/-- Contents returned for one repository file by the contents API:
an encoding tag plus the raw text (decoded when the tag is `base64`). -/
structure RepoContent where
  encoding : String
  content : String
deriving DecidableEq

/-- One repository file to analyze: path plus the outcome of fetching its
contents (`Except.error` models a failed fetch, caught at lines 557-563). -/
structure RepoFile where
  path : String
  fetch : Except String RepoContent

/-- A file as stored inside a batch (lines 551-554): path and truncated
content. -/
structure BatchEntry where
  path : String
  content : String
deriving DecidableEq

/-- Byte budget per batch (line 481). -/
def MAX_BATCH_SIZE : Nat := 800000

/-- File-count budget per batch (line 482). -/
def MAX_FILES_PER_BATCH : Nat := 25

/-- Truncation applied before a file joins a batch (lines 547-549). -/
def truncateContent (c : String) : String :=
  if 12000 < c.length then
    (c.toList.take 12000).asString ++ "\n... (content truncated for analysis)"
  else c

/-- The batch entry produced for an analyzable file (fetch succeeded with
base64 encoding, lines 507-513), or `none` for skipped files. -/
def repoEligible (f : RepoFile) : Option BatchEntry :=
  match f.fetch with
  | .error _ => none
  | .ok rc =>
    if rc.encoding = "base64" then some ⟨f.path, truncateContent rc.content⟩
    else none

/-- The batching half of `analyzeCodeBatches` (lines 500-569): files whose
fetch failed or whose contents are not base64-encoded are skipped; before a
file is appended, the current batch is emitted when adding the file's full
(untruncated) length would exceed `MAX_BATCH_SIZE` or the batch already
holds `MAX_FILES_PER_BATCH` files (line 538); the appended entry carries
the truncated content, whose length is what the running size accumulates
(lines 547-555). -/
def repoBatchLoop : List RepoFile → List BatchEntry → Nat → List (List BatchEntry)
  | [], cur, _ => if cur.isEmpty then [] else [cur]
  | f :: rest, cur, curSize =>
    match f.fetch with
    | .error _ => repoBatchLoop rest cur curSize
    | .ok rc =>
      if rc.encoding = "base64" then
        let entry : BatchEntry := ⟨f.path, truncateContent rc.content⟩
        if MAX_BATCH_SIZE < curSize + rc.content.length ∨
            MAX_FILES_PER_BATCH ≤ cur.length then
          if cur.isEmpty then
            repoBatchLoop rest (cur ++ [entry]) (curSize + entry.content.length)
          else
            cur :: repoBatchLoop rest [entry] entry.content.length
        else
          repoBatchLoop rest (cur ++ [entry]) (curSize + entry.content.length)
      else
        repoBatchLoop rest cur curSize

/-- The batches produced by `analyzeCodeBatches` for the fetched files. -/
def repoBatches (input : List RepoFile) : List (List BatchEntry) :=
  repoBatchLoop input [] 0

/-- The analyzable files in input order, as batch entries. -/
def repoFiltered (input : List RepoFile) : List BatchEntry :=
  input.filterMap repoEligible

/-- `totalFiles` (lines 487 and 517): the number of analyzable files. -/
def repoTotalFiles (input : List RepoFile) : Nat :=
  (repoFiltered input).length

/-- Total stored size of a batch (the sum of the truncated lengths). -/
def repoBatchSize (b : List BatchEntry) : Nat :=
  (b.map fun e => e.content.length).sum

/-- The classifier's structured verdict for one repository batch
(`report_ai_code_analysis`, lines 617-647). -/
structure RepoVerdict where
  ai_prob : ℚ
  patterns_detected : List String
  code_quality : String
  rationale : String

/-- Pattern accumulation (lines 672-676): append each detected pattern not
already present (exact string match), preserving first-appearance order. -/
def addUniquePatterns (acc : List String) (ps : List String) : List String :=
  ps.foldl (fun a p => if a.contains p then a else a ++ [p]) acc

/-- The quality rollup step of the repository script (lines 681-691),
mirroring the JavaScript parse of its condition: `&&` binds tighter than
`||`, so the middle line reads `(code_quality === 'average' && overall ===
'good') || overall === 'excellent'`. -/
def updateQualityJs (i : Nat) (overall cq : String) : String :=
  if i == 0 || overall == "Unknown" then cq
  else if (cq == "poor" && overall != "poor")
      || ((cq == "average" && overall == "good") || overall == "excellent")
      || (cq == "good" && overall == "excellent") then cq
  else overall

/-- The running aggregate of `analyzeCodeBatches` (initialized at lines
584-587 to `0`, `[]`, `'Unknown'`, `[]`). -/
structure RepoAgg where
  overallAiProb : ℚ
  allPatterns : List String
  overallCodeQuality : String
  allRationales : List String

/-- The analysis half of `analyzeCodeBatches` (lines 589-700).  Each
batch's classifier call is inside try/catch: a failure only appends
`Batch {i+1}: Error during analysis - {message}` to the rationale list
(line 698) and the loop continues; a success adds its weighted probability
(line 669, weight `batches[i].length / totalFiles`), its new patterns, its
rationale line and its quality to the aggregate. -/
def repoAnalyzeLoop (totalFiles : Nat) (oracle : Nat → Except String RepoVerdict) :
    List (List BatchEntry) → Nat → RepoAgg → RepoAgg
  | [], _, acc => acc
  | b :: rest, i, acc =>
    match oracle i with
    | .error e =>
      repoAnalyzeLoop totalFiles oracle rest (i + 1)
        { acc with allRationales := acc.allRationales ++
            ["Batch " ++ toString (i + 1) ++ ": Error during analysis - " ++ e] }
    | .ok v =>
      repoAnalyzeLoop totalFiles oracle rest (i + 1)
        { overallAiProb :=
            acc.overallAiProb + v.ai_prob * ((b.length : ℚ) / (totalFiles : ℚ)),
          allPatterns := addUniquePatterns acc.allPatterns v.patterns_detected,
          overallCodeQuality := updateQualityJs i acc.overallCodeQuality v.code_quality,
          allRationales := acc.allRationales ++
            ["Batch " ++ toString (i + 1) ++ " (" ++ toString b.length ++
              " files): " ++ v.rationale] }

/-- The aggregate produced by `analyzeCodeBatches` over the fetched files. -/
def repoAnalyze (input : List RepoFile) (oracle : Nat → Except String RepoVerdict) :
    RepoAgg :=
  repoAnalyzeLoop (repoTotalFiles input) oracle (repoBatches input) 0 ⟨0, [], "Unknown", []⟩

/-- The rationale line recorded for batch `i` (error line for a failed
classifier call, success line otherwise). -/
def ratLines (oracle : Nat → Except String RepoVerdict) :
    List (List BatchEntry) → Nat → List String
  | [], _ => []
  | b :: rest, i =>
    (match oracle i with
     | .error e => "Batch " ++ toString (i + 1) ++ ": Error during analysis - " ++ e
     | .ok v => "Batch " ++ toString (i + 1) ++ " (" ++ toString b.length ++
         " files): " ++ v.rationale) :: ratLines oracle rest (i + 1)

/-- Weighted-probability sum over the successfully-verdicted batches only:
an errored batch contributes zero. -/
def okWeightedSum (totalFiles : Nat) (oracle : Nat → Except String RepoVerdict) :
    List (List BatchEntry) → Nat → ℚ
  | [], _ => 0
  | b :: rest, i =>
    (match oracle i with
     | .ok v => v.ai_prob * ((b.length : ℚ) / (totalFiles : ℚ))
     | .error _ => 0) + okWeightedSum totalFiles oracle rest (i + 1)

/-- The sum of the weights `batch.length / totalFiles` across batches. -/
def batchWeightSum (totalFiles : Nat) (batches : List (List BatchEntry)) : ℚ :=
  (batches.map fun b => (b.length : ℚ) / (totalFiles : ℚ)).sum

/-- A rule produced by `parseHumanReadableRules`. -/
structure HRRule where
  name : String
  condition : String
  severity : String
  message : String
deriving DecidableEq

/-- The condition chosen from a section title (lines 746-763); the empty
string means no recognized title, and the section is dropped. -/
def hrCondition (title : String) : String :=
  if title = "High AI Confidence" then "ai_prob > 0.8"
  else if title = "Medium AI Confidence" then "ai_prob > 0.6 && !license_comment"
  else if title = "Likely AI Generated" then "ai_prob > 0.4 && !license_comment"
  else if title = "Poor Comment Quality" then "ai_prob > 0.5"
  else if title = "Grammar Issues" then "ai_prob > 0.3"
  else if title = "Missing Context" then "ai_prob > 0.4 && lines_added > 100"
  else if title = "Missing Tests" then "ai_prob > 0.5 && !tests_changed && lines_added > 50"
  else if title = "Excessive Code" then "lines_added > 300 && ai_prob > 0.5"
  else ""

/-- `parseHumanReadableRules` (lines 728-777): sections split on `## `;
the title is the first line trimmed, the content the remaining lines joined
by spaces and trimmed; severity is `error` when the content contains
`flag this as an error`; only titles with a recognized condition yield a
rule, and the condition is taken from the fixed table, never from the text. -/
def parseHumanReadableRules (text : String) : List HRRule :=
  ((jsSplit "## ".toList text.toList).drop 1).filterMap fun sec =>
    let ls := jsSplit ['\n'] (trimChars sec)
    let title := (trimChars (ls.headD [])).asString
    let content := (trimChars (List.intercalate [' '] (ls.drop 1))).asString
    let severity :=
      if containsSub "flag this as an error".toList content.toList then "error"
      else "warning"
    let condition := hrCondition title
    if condition ≠ "" then some ⟨title, condition, severity, content⟩ else none

/-! ## The GitHub-App pull-request script (`src/unnamed/part_000`) -/

/-- `qualityRank` (lines 213-218) combined with the JavaScript lookup
`qualityRank[q] || 0`: an unrecognized string ranks 0. -/
def qualityRank (q : String) : Nat :=
  if q = "poor" then 0
  else if q = "average" then 1
  else if q = "good" then 2
  else if q = "excellent" then 3
  else 0

/-- `updateOverallCodeQuality` (lines 207-228): the first batch (or an
`Unknown` aggregate) seeds unconditionally; afterwards the batch quality
replaces the aggregate only when its rank is strictly lower. -/
def updateOverallCodeQuality (batchIndex : Nat) (overall batchQuality : String) :
    String :=
  if batchIndex == 0 || overall == "Unknown" then batchQuality
  else if qualityRank batchQuality < qualityRank overall then batchQuality
  else overall

/-- Outcome fields of one run of `analyzePullRequest` relevant to the
zero-file short-circuit: terminal status, recorded error, and how many
classifier calls and rule evaluations were made. -/
structure AppRunOutcome where
  analysis_status : String
  error : Option String
  classifierCalls : Nat
  ruleEvaluations : Nat
deriving DecidableEq

/-- The gate at lines 84-89 of `analyzePullRequest`: when filtering leaves
no files the run records status `skipped` with its message and returns
before any batching, classifier call or rule evaluation; otherwise the rest
of the pipeline (abstracted as `rest`) runs on the filtered files. -/
def analyzePullRequestGate (codeFiles : List PRFile)
    (rest : List PRFile → AppRunOutcome) : AppRunOutcome :=
  if codeFiles.length = 0 then
    ⟨"skipped", some "No code files to analyze after filtering", 0, 0⟩
  else rest codeFiles

/-! ## The rule-condition grammar of the specification

These definitions render the specification's words, to compare the scripts
against them: each rule condition must be built from comparison and logical
operators over exactly the four `EvaluationContext` variables. -/

/-- Comparison and logical operator tokens admitted by the grammar. -/
def grammarOps : List String :=
  [">", "<", ">=", "<=", "==", "!=", "===", "!==", "&&", "||"]

/-- The four `EvaluationContext` variables. -/
def ctxVars : List String :=
  ["ai_prob", "lines_added", "tests_changed", "license_comment"]

/-- Is one space-separated token within the grammar: an operator, one of
the four variables (optionally under logical negation `!`), or a numeric
literal? -/
def grammarTokenOk (t : List Char) : Bool :=
  grammarOps.contains t.asString ||
  ctxVars.contains t.asString ||
  (match t with
   | '!' :: v => ctxVars.contains v.asString
   | _ => false) ||
  (!t.isEmpty && t.all fun c => c.isDigit || c = '.')

/-- Rendering of the specification's rule-condition grammar: every
space-separated token of the condition text is an operator, a context
variable (optionally negated), or a number.  Text containing any other
identifier, a function call, or punctuation such as parentheses fails the
check. -/
def specConditionGrammarOk (s : String) : Bool :=
  (jsSplit [' '] s.toList).all grammarTokenOk

/-- The weight the specification assigns to a batch: its file count over
the number of files left by the filter. -/
def specBatchWeight (b : List PRFile) (filteredCount : Nat) : ℚ :=
  (b.length : ℚ) / (filteredCount : ℚ)

/-! ## Concrete instances used in statements below -/

/-- A changed file carrying a two-character patch. -/
def exPatched : PRFile := ⟨"a.js", some "ab", 2⟩

/-- A changed file with no retrievable patch (filtered out). -/
def exNoPatch : PRFile := ⟨"b.bin", none, 0⟩

/-- A repository file whose fetch succeeds with base64-encoded contents. -/
def exRepoFile : RepoFile := ⟨"a.js", Except.ok ⟨"base64", "x"⟩⟩

/-- A well-formed rule file with one in-grammar rule. -/
def exRuleText : String :=
  "[rule]\nname = r1\nwhen = ai_prob > 0.9\nseverity = error\nmessage = m1"

/-- A well-formed rule file whose condition is an arbitrary JavaScript
call, far outside the expression grammar. -/
def exInjectionText : String :=
  "[rule]\nname = custom\nwhen = process.exit(1)\nseverity = error\nmessage = boom"

/-- A human-readable rule file with one recognized section title. -/
def exHrText : String := "## High AI Confidence\nsome content flag this as an error"

/-! ## Helper lemmas -/

theorem prBatchSize_append (a b : List PRFile) :
    prBatchSize (a ++ b) = prBatchSize a + prBatchSize b := by
  simp [prBatchSize]

/-- Flattening the loop's output recovers the pending batch followed by the
files that carry a patch, in input order. -/
theorem prBatchLoop_flatten (files : List PRFile) :
    ∀ cur curSize,
      (prBatchLoop files cur curSize).flatten = cur ++ files.filter hasPatch := by
  induction files with
  | nil =>
    intro cur curSize
    cases cur <;> simp [prBatchLoop]
  | cons f rest ih =>
    intro cur curSize
    by_cases hp : hasPatch f
    · by_cases hover : MAX_DIFF_LENGTH < curSize + patchLen f
      · cases hcur : cur.isEmpty
        · simp only [prBatchLoop, hp, if_pos hover, hcur, Bool.false_eq_true, if_false,
            ite_true, ite_false, List.flatten_cons, ih, List.filter_cons]
          simp [hp]
        · have hnil : cur = [] := List.isEmpty_iff.mp hcur
          subst hnil
          simp [prBatchLoop, hp, hover, ih, List.filter_cons]
      · simp [prBatchLoop, hp, hover, ih, List.filter_cons]
    · simp [prBatchLoop, hp, ih, List.filter_cons]

/-- The concatenation of the pull-request batches is exactly the filtered
input list: no loss, no duplication, no reordering. -/
theorem prBatches_flatten (files : List PRFile) :
    (prBatches files).flatten = files.filter hasPatch := by
  simpa using prBatchLoop_flatten files [] 0

/-- Size invariant of the batching loop: provided the pending batch
satisfies it, every emitted batch either fits in `MAX_DIFF_LENGTH` or is a
single oversized file. -/
theorem prBatchLoop_size (files : List PRFile) :
    ∀ cur curSize b,
      curSize = prBatchSize cur →
      (prBatchSize cur ≤ MAX_DIFF_LENGTH ∨ cur.length ≤ 1) →
      b ∈ prBatchLoop files cur curSize →
      prBatchSize b ≤ MAX_DIFF_LENGTH ∨
        (b.length = 1 ∧ MAX_DIFF_LENGTH < prBatchSize b) := by
  induction files with
  | nil =>
    intro cur curSize b hsz hinv hb
    cases hcur : cur.isEmpty
    · simp only [prBatchLoop, hcur, Bool.false_eq_true, if_false, List.mem_singleton] at hb
      subst hb
      rcases hinv with h | h
      · exact Or.inl h
      · by_cases hle : prBatchSize b ≤ MAX_DIFF_LENGTH
        · exact Or.inl hle
        · refine Or.inr ⟨?_, Nat.lt_of_not_le hle⟩
          have hne : b ≠ [] := by
            intro hnil
            rw [hnil] at hcur
            simp at hcur
          have hpos : 0 < b.length := List.length_pos.mpr hne
          omega
    · simp [prBatchLoop, hcur] at hb
  | cons f rest ih =>
    intro cur curSize b hsz hinv hb
    by_cases hp : hasPatch f
    · by_cases hover : MAX_DIFF_LENGTH < curSize + patchLen f
      · cases hcur : cur.isEmpty
        · simp only [prBatchLoop, hp, if_pos hover, hcur, Bool.false_eq_true, if_false,
            ite_true, ite_false, List.mem_cons] at hb
          rcases hb with heq | hb
          · subst heq
            rcases hinv with h | h
            · exact Or.inl h
            · by_cases hle : prBatchSize b ≤ MAX_DIFF_LENGTH
              · exact Or.inl hle
              · refine Or.inr ⟨?_, Nat.lt_of_not_le hle⟩
                have hne : b ≠ [] := by
                  intro hnil
                  rw [hnil] at hcur
                  simp at hcur
                have hpos : 0 < b.length := List.length_pos.mpr hne
                omega
          · exact ih [f] (patchLen f) b (by simp [prBatchSize]) (Or.inr (by simp)) hb
        · have hnil : cur = [] := List.isEmpty_iff.mp hcur
          subst hnil
          simp only [prBatchLoop, hp, if_pos hover, List.isEmpty_nil, if_true,
            ite_true] at hb
          refine ih ([] ++ [f]) (curSize + patchLen f) b ?_ (Or.inr (by simp)) hb
          simp [prBatchSize] at hsz ⊢
          omega
      · simp only [prBatchLoop, hp, if_neg hover, ite_true,
          Bool.true_eq_false] at hb
        refine ih (cur ++ [f]) (curSize + patchLen f) b ?_ (Or.inl ?_) hb
        · simp [prBatchSize_append, prBatchSize, hsz]
        · have : prBatchSize (cur ++ [f]) = curSize + patchLen f := by
            simp [prBatchSize_append, prBatchSize, hsz]
          omega
    · simp only [prBatchLoop, hp, Bool.false_eq_true, if_false, ite_false] at hb
      exact ih cur curSize b hsz hinv hb

/-- Every batch of the pull-request script fits in `MAX_DIFF_LENGTH` unless
it is a single file whose patch alone exceeds the limit. -/
theorem prBatches_size (files : List PRFile) (b : List PRFile)
    (hb : b ∈ prBatches files) :
    prBatchSize b ≤ MAX_DIFF_LENGTH ∨
      (b.length = 1 ∧ MAX_DIFF_LENGTH < prBatchSize b) :=
  prBatchLoop_size files [] 0 b (by simp [prBatchSize]) (Or.inl (by simp [prBatchSize])) hb

/-- Flattening the repository batch loop's output recovers the pending
batch followed by the analyzable files, in input order. -/
theorem repoBatchLoop_flatten (input : List RepoFile) :
    ∀ cur curSize,
      (repoBatchLoop input cur curSize).flatten = cur ++ repoFiltered input := by
  induction input with
  | nil =>
    intro cur curSize
    cases cur <;> simp [repoBatchLoop, repoFiltered]
  | cons f rest ih =>
    intro cur curSize
    cases hf : f.fetch with
    | error e =>
      simp [repoBatchLoop, hf, repoFiltered, List.filterMap_cons, repoEligible, ih]
    | ok rc =>
      by_cases henc : rc.encoding = "base64"
      · by_cases hcond : MAX_BATCH_SIZE < curSize + rc.content.length ∨
            MAX_FILES_PER_BATCH ≤ cur.length
        · cases hcur : cur.isEmpty
          · simp only [repoBatchLoop, hf, henc, if_pos hcond, hcur, Bool.false_eq_true,
              if_false, ite_true, ite_false, List.flatten_cons]
            rw [ih]
            simp [repoFiltered, List.filterMap_cons, repoEligible, hf, henc]
          · have hnil : cur = [] := List.isEmpty_iff.mp hcur
            subst hnil
            simp only [repoBatchLoop, hf, henc, if_pos hcond, List.isEmpty_nil,
              ite_true, if_true]
            rw [ih]
            simp [repoFiltered, List.filterMap_cons, repoEligible, hf, henc]
        · simp only [repoBatchLoop, hf, henc, if_neg hcond, ite_true]
          rw [ih]
          simp [repoFiltered, List.filterMap_cons, repoEligible, hf, henc]
      · simp only [repoBatchLoop, hf, henc, Bool.false_eq_true, if_false, ite_false]
        rw [ih]
        simp [repoFiltered, List.filterMap_cons, repoEligible, hf, henc]

/-- The concatenation of the repository batches is exactly the analyzable
input, in order. -/
theorem repoBatches_flatten (input : List RepoFile) :
    (repoBatches input).flatten = repoFiltered input := by
  simpa using repoBatchLoop_flatten input [] 0

/-- File-count invariant of the repository batch loop: no emitted batch
exceeds `MAX_FILES_PER_BATCH` files. -/
theorem repoBatchLoop_count (input : List RepoFile) :
    ∀ cur curSize b,
      cur.length ≤ MAX_FILES_PER_BATCH →
      b ∈ repoBatchLoop input cur curSize →
      b.length ≤ MAX_FILES_PER_BATCH := by
  induction input with
  | nil =>
    intro cur curSize b hinv hb
    cases hcur : cur.isEmpty
    · simp only [repoBatchLoop, hcur, Bool.false_eq_true, if_false,
        List.mem_singleton] at hb
      exact hb ▸ hinv
    · simp [repoBatchLoop, hcur] at hb
  | cons f rest ih =>
    intro cur curSize b hinv hb
    cases hf : f.fetch with
    | error e =>
      rw [repoBatchLoop, hf] at hb
      exact ih cur curSize b hinv hb
    | ok rc =>
      by_cases henc : rc.encoding = "base64"
      · by_cases hcond : MAX_BATCH_SIZE < curSize + rc.content.length ∨
            MAX_FILES_PER_BATCH ≤ cur.length
        · cases hcur : cur.isEmpty
          · simp only [repoBatchLoop, hf, henc, if_pos hcond, hcur, Bool.false_eq_true,
              if_false, ite_true, ite_false, List.mem_cons] at hb
            rcases hb with heq | hb
            · exact heq ▸ hinv
            · exact ih _ _ b (by simp [MAX_FILES_PER_BATCH]) hb
          · have hnil : cur = [] := List.isEmpty_iff.mp hcur
            subst hnil
            simp only [repoBatchLoop, hf, henc, if_pos hcond, List.isEmpty_nil,
              ite_true, if_true] at hb
            exact ih _ _ b (by simp [MAX_FILES_PER_BATCH]) hb
        · simp only [repoBatchLoop, hf, henc, if_neg hcond, ite_true] at hb
          have hlt : cur.length < MAX_FILES_PER_BATCH := by
            rcases Nat.lt_or_ge cur.length MAX_FILES_PER_BATCH with h | h
            · exact h
            · exact absurd (Or.inr h) hcond
          exact ih _ _ b (by simp; omega) hb
      · simp only [repoBatchLoop, hf, henc, Bool.false_eq_true, if_false,
          ite_false] at hb
        exact ih cur curSize b hinv hb

/-- Every repository batch holds at most `MAX_FILES_PER_BATCH` files. -/
theorem repoBatches_count (input : List RepoFile) (b : List BatchEntry)
    (hb : b ∈ repoBatches input) : b.length ≤ MAX_FILES_PER_BATCH :=
  repoBatchLoop_count input [] 0 b (by simp) hb

/-- A truncated content is at most 12037 characters long (12000 plus the
truncation marker). -/
theorem truncateContent_len (c : String) : (truncateContent c).length ≤ 12037 := by
  unfold truncateContent
  by_cases h : 12000 < c.length
  · rw [if_pos h, String.length_append]
    have h1 : ((c.toList.take 12000).asString).length ≤ 12000 := by
      have : ((c.toList.take 12000).asString).length = (c.toList.take 12000).length := rfl
      rw [this]
      simp
    have h2 : ("\n... (content truncated for analysis)" : String).length = 37 := rfl
    omega
  · rw [if_neg h]
    omega

/-- Every entry stored in a repository batch is a truncated content. -/
theorem repoEligible_content (f : RepoFile) (x : BatchEntry)
    (h : repoEligible f = some x) : ∃ c, x.content = truncateContent c := by
  cases hf : f.fetch with
  | error e => simp [repoEligible, hf] at h
  | ok rc =>
    simp only [repoEligible, hf] at h
    by_cases henc : rc.encoding = "base64"
    · rw [if_pos henc] at h
      injection h with h2
      exact ⟨rc.content, by rw [← h2]⟩
    · rw [if_neg henc] at h
      exact absurd h (by simp)

/-- Every repository batch's stored size is far below `MAX_BATCH_SIZE`:
at most 25 files of at most 12037 characters each. -/
theorem repoBatches_size (input : List RepoFile) (b : List BatchEntry)
    (hb : b ∈ repoBatches input) : repoBatchSize b ≤ MAX_BATCH_SIZE := by
  have hcount : b.length ≤ MAX_FILES_PER_BATCH := repoBatches_count input b hb
  have hbound : ∀ n ∈ b.map fun e => e.content.length, n ≤ 12037 := by
    intro n hn
    rcases List.mem_map.mp hn with ⟨x, hxb, hxn⟩
    have hxf : x ∈ (repoBatches input).flatten := List.mem_flatten.mpr ⟨b, hb, hxb⟩
    rw [repoBatches_flatten] at hxf
    rcases List.mem_filterMap.mp hxf with ⟨f, _, hf⟩
    rcases repoEligible_content f x hf with ⟨c, hc⟩
    rw [← hxn, hc]
    exact truncateContent_len c
  have hsum : (b.map fun e => e.content.length).sum ≤
      (b.map fun e => e.content.length).length * 12037 := by
    calc (b.map fun e => e.content.length).sum
        ≤ (b.map fun e => e.content.length).length • 12037 :=
          List.sum_le_card_nsmul _ _ hbound
      _ = (b.map fun e => e.content.length).length * 12037 := by rw [smul_eq_mul]
  have hlen : (b.map fun e => e.content.length).length = b.length := List.length_map _ _
  unfold repoBatchSize MAX_BATCH_SIZE
  unfold MAX_FILES_PER_BATCH at hcount
  omega

/-- The analysis loop records one rationale line per batch, appended in
batch order after whatever the accumulator already holds. -/
theorem repoAnalyzeLoop_rats (totalFiles : Nat)
    (oracle : Nat → Except String RepoVerdict) (batches : List (List BatchEntry)) :
    ∀ i acc,
      (repoAnalyzeLoop totalFiles oracle batches i acc).allRationales =
        acc.allRationales ++ ratLines oracle batches i := by
  induction batches with
  | nil =>
    intro i acc
    simp [repoAnalyzeLoop, ratLines]
  | cons b rest ih =>
    intro i acc
    cases ho : oracle i with
    | error e =>
      simp only [repoAnalyzeLoop, ho, ratLines]
      rw [ih]
      simp
    | ok v =>
      simp only [repoAnalyzeLoop, ho, ratLines]
      rw [ih]
      simp

/-- The analysis loop accumulates exactly the successful batches' weighted
probabilities; errored batches contribute nothing. -/
theorem repoAnalyzeLoop_prob (totalFiles : Nat)
    (oracle : Nat → Except String RepoVerdict) (batches : List (List BatchEntry)) :
    ∀ i acc,
      (repoAnalyzeLoop totalFiles oracle batches i acc).overallAiProb =
        acc.overallAiProb + okWeightedSum totalFiles oracle batches i := by
  induction batches with
  | nil =>
    intro i acc
    simp [repoAnalyzeLoop, okWeightedSum]
  | cons b rest ih =>
    intro i acc
    cases ho : oracle i with
    | error e =>
      simp only [repoAnalyzeLoop, ho, okWeightedSum]
      rw [ih]
      simp
    | ok v =>
      simp only [repoAnalyzeLoop, ho, okWeightedSum]
      rw [ih]
      simp [add_assoc]

/-- One rationale line is recorded per batch. -/
theorem ratLines_length (oracle : Nat → Except String RepoVerdict)
    (batches : List (List BatchEntry)) :
    ∀ i, (ratLines oracle batches i).length = batches.length := by
  induction batches with
  | nil => intro i; simp [ratLines]
  | cons b rest ih => intro i; simp [ratLines, ih]

/-- The line recorded for an errored batch is its explicit error line. -/
theorem ratLines_get_error (oracle : Nat → Except String RepoVerdict)
    (batches : List (List BatchEntry)) :
    ∀ i j e, j < batches.length → oracle (i + j) = .error e →
      (ratLines oracle batches i)[j]? =
        some ("Batch " ++ toString (i + j + 1) ++ ": Error during analysis - " ++ e) := by
  induction batches with
  | nil =>
    intro i j e hj _
    exact absurd hj (by simp)
  | cons b rest ih =>
    intro i j e hj ho
    cases j with
    | zero =>
      rw [Nat.add_zero] at ho
      simp [ratLines, ho]
    | succ j' =>
      have hj' : j' < rest.length := by simpa using hj
      have ho' : oracle ((i + 1) + j') = .error e := by
        rw [show (i + 1) + j' = i + (j' + 1) by omega]
        exact ho
      have := ih (i + 1) j' e hj' ho'
      simp only [ratLines, List.getElem?_cons_succ]
      rw [this, show (i + 1) + j' + 1 = i + (j' + 1) + 1 by omega]

/-- The batch weights sum to the total batched file count over
`totalFiles`. -/
theorem batchWeightSum_eq (tf : Nat) (l : List (List BatchEntry)) :
    batchWeightSum tf l = (l.flatten.length : ℚ) / (tf : ℚ) := by
  unfold batchWeightSum
  induction l with
  | nil => simp
  | cons b rest ih =>
    simp only [List.map_cons, List.sum_cons, ih, List.flatten_cons, List.length_append]
    push_cast
    ring

/-- The repository batch weights `batch.length / totalFiles` sum to 1 when
at least one file was analyzable. -/
theorem repo_weight_sum (input : List RepoFile) (h : repoTotalFiles input ≠ 0) :
    batchWeightSum (repoTotalFiles input) (repoBatches input) = 1 := by
  rw [batchWeightSum_eq, repoBatches_flatten]
  exact div_self (by exact_mod_cast h)

/-- The pull-request batch loop never emits an empty batch. -/
theorem prBatchLoop_ne_nil (files : List PRFile) :
    ∀ cur curSize b, b ∈ prBatchLoop files cur curSize → b ≠ [] := by
  induction files with
  | nil =>
    intro cur curSize b hb
    cases hcur : cur.isEmpty
    · simp only [prBatchLoop, hcur, Bool.false_eq_true, if_false,
        List.mem_singleton] at hb
      subst hb
      intro hnil
      rw [hnil] at hcur
      simp at hcur
    · simp [prBatchLoop, hcur] at hb
  | cons f rest ih =>
    intro cur curSize b hb
    by_cases hp : hasPatch f
    · by_cases hover : MAX_DIFF_LENGTH < curSize + patchLen f
      · cases hcur : cur.isEmpty
        · simp only [prBatchLoop, hp, if_pos hover, hcur, Bool.false_eq_true, if_false,
            ite_true, ite_false, List.mem_cons] at hb
          rcases hb with heq | hb
          · subst heq
            intro hnil
            rw [hnil] at hcur
            simp at hcur
          · exact ih _ _ b hb
        · have hnil : cur = [] := List.isEmpty_iff.mp hcur
          subst hnil
          simp only [prBatchLoop, hp, if_pos hover, List.isEmpty_nil, ite_true,
            if_true] at hb
          exact ih _ _ b hb
      · simp only [prBatchLoop, hp, if_neg hover, ite_true] at hb
        exact ih _ _ b hb
    · simp only [prBatchLoop, hp, Bool.false_eq_true, if_false, ite_false] at hb
      exact ih _ _ b hb

/-- When filtering leaves no patched file, the pull-request script produces
no batches at all. -/
theorem prBatches_eq_nil (files : List PRFile) (h : files.filter hasPatch = []) :
    prBatches files = [] := by
  cases hb : prBatches files with
  | nil => rfl
  | cons b rest =>
    have hmem : b ∈ prBatches files := by rw [hb]; exact List.mem_cons_self b rest
    have hbne : b ≠ [] := prBatchLoop_ne_nil files [] 0 b hmem
    obtain ⟨x, hx⟩ := List.exists_mem_of_ne_nil b hbne
    have hxf : x ∈ (prBatches files).flatten := List.mem_flatten.mpr ⟨b, hmem, hx⟩
    rw [prBatches_flatten, h] at hxf
    exact absurd hxf (List.not_mem_nil x)

/-- Every rule's condition text is handed to the evaluator, in order. -/
theorem prRuleLoop_conds (ctx : EvalCtx) (ev : String → EvalCtx → Bool)
    (rules : List JsRule) :
    (prRuleLoop ctx ev rules).1 = rules.map fun r => r.when := by
  induction rules with
  | nil => simp [prRuleLoop]
  | cons r rest ih => simp [prRuleLoop, ih]

/-- The failure list is empty exactly when no `error`-severity rule
triggered. -/
theorem prRuleLoop_failures_nil (ctx : EvalCtx) (ev : String → EvalCtx → Bool)
    (rules : List JsRule) :
    (prRuleLoop ctx ev rules).2.1 = [] ↔
      ∀ r ∈ rules, ¬(r.severity = "error" ∧ ev r.when ctx = true) := by
  induction rules with
  | nil => simp [prRuleLoop]
  | cons r rest ih =>
    by_cases ht : ev r.when ctx = true
    · by_cases hsev : r.severity = "error"
      · simp [prRuleLoop, ht, hsev, ih]
      · simp [prRuleLoop, ht, hsev, ih]
    · have ht' : ev r.when ctx = false := by
        cases hev : ev r.when ctx
        · rfl
        · exact absurd hev ht
      simp [prRuleLoop, ht', ih]

/-- Exit-code computation: 0 exactly when the failure list is empty. -/
theorem ite_isEmpty_eq_zero (L : List String) :
    (if L.isEmpty then (0 : Nat) else 1) = 0 ↔ L = [] := by
  cases L <;> simp

/-- Every condition the title table can produce is either absent or within
the spec's expression grammar. -/
theorem hrCondition_grammar (title : String) :
    hrCondition title = "" ∨ specConditionGrammarOk (hrCondition title) = true := by
  unfold hrCondition
  split_ifs <;> first
    | exact Or.inl rfl
    | exact Or.inr (by decide)

/-! ## Claim theorems -/

/-- Claim C1: for every input file list, the batches produced by the batch
partitioner, concatenated in order, reproduce the filtered input list
exactly — no file is lost, none is duplicated, and the order within and
across batches matches the input order.  This holds for the pull-request
script's batching loop (filter: files carrying a patch) and for the
repository script's `analyzeCodeBatches` (filter: fetchable base64 files,
stored as truncated entries). -/
theorem claim1_partition :
    (∀ files : List PRFile, (prBatches files).flatten = files.filter hasPatch) ∧
    (∀ input : List RepoFile, (repoBatches input).flatten = repoFiltered input) :=
  ⟨prBatches_flatten, repoBatches_flatten⟩

/-- Claim C2: every batch's total byte size is at most the byte limit,
except that in the pull-request script a single file whose patch alone
exceeds `MAX_DIFF_LENGTH` becomes its own singleton batch (never rejected
or split); in the repository script no batch ever exceeds `MAX_BATCH_SIZE`
at all, because stored contents are truncated to at most 12037 characters
and batches hold at most 25 files. -/
theorem claim2_batch_size :
    (∀ (files : List PRFile) (b : List PRFile), b ∈ prBatches files →
      prBatchSize b ≤ MAX_DIFF_LENGTH ∨
        (b.length = 1 ∧ MAX_DIFF_LENGTH < prBatchSize b)) ∧
    (∀ (input : List RepoFile) (b : List BatchEntry), b ∈ repoBatches input →
      repoBatchSize b ≤ MAX_BATCH_SIZE) :=
  ⟨prBatches_size, repoBatches_size⟩

theorem claim2_batch_size_witness :
    (prBatchSize [exPatched] ≤ MAX_DIFF_LENGTH ∨
      ([exPatched] : List PRFile).length = 1 ∧ MAX_DIFF_LENGTH < prBatchSize [exPatched]) ∧
    repoBatchSize [⟨"a.js", "x"⟩] ≤ MAX_BATCH_SIZE :=
  ⟨claim2_batch_size.1 [exPatched] [exPatched] (by decide),
   claim2_batch_size.2 [exRepoFile] [⟨"a.js", "x"⟩] (by decide)⟩

/-- Claim C3 as stated fails on the pull-request script: with one patched
and one patch-less file, `files.length` is 2 while the filtered count is 1;
a verdict of probability 1 on the single batch then accumulates weight 1/2,
not the claimed `fileCount / totalFilteredFileCount = 1`, even though no
batch errored. -/
theorem claim3_weights_counterexample :
    ([exPatched, exNoPatch].filter hasPatch).length = 1 ∧
    (prAnalyze (prBatches [exPatched, exNoPatch]) [exPatched, exNoPatch].length
      (fun _ => Except.ok ⟨1, "r"⟩)).toOption.map Prod.fst = some (1 / 2 : ℚ) ∧
    (1 / 2 : ℚ) ≠ 1 := by
  refine ⟨by decide, ?_, by norm_num⟩
  have hb : prBatches [exPatched, exNoPatch] = [[exPatched]] := by decide
  rw [hb]
  simp [prAnalyze, prAnalyzeLoop]
  exact ⟨_, rfl⟩

/-- Claim C3 amended: in the repository script (`analyzeCodeBatches`) the
weight denominator `totalFiles` is the filtered file count, so whenever at
least one file is analyzable the weights `batch.length / totalFiles` sum to
1 across all batches, and the aggregate probability is exactly the sum of
`ai_prob * weight` over the successfully-verdicted batches, errored batches
contributing zero. -/
theorem claim3_weights_amended (input : List RepoFile)
    (oracle : Nat → Except String RepoVerdict) (h : repoTotalFiles input ≠ 0) :
    batchWeightSum (repoTotalFiles input) (repoBatches input) = 1 ∧
    (repoAnalyze input oracle).overallAiProb =
      okWeightedSum (repoTotalFiles input) oracle (repoBatches input) 0 := by
  refine ⟨repo_weight_sum input h, ?_⟩
  have hp := repoAnalyzeLoop_prob (repoTotalFiles input) oracle (repoBatches input) 0
    ⟨0, [], "Unknown", []⟩
  simpa [repoAnalyze] using hp

theorem claim3_weights_amended_witness :
    batchWeightSum (repoTotalFiles [exRepoFile]) (repoBatches [exRepoFile]) = 1 ∧
    (repoAnalyze [exRepoFile] (fun _ => Except.error "boom")).overallAiProb =
      okWeightedSum (repoTotalFiles [exRepoFile]) (fun _ => Except.error "boom")
        (repoBatches [exRepoFile]) 0 :=
  claim3_weights_amended [exRepoFile] (fun _ => Except.error "boom") (by decide)

/-- Claim C4, the code bug it pins down: the App script's
`updateOverallCodeQuality` implements the claimed rollup — the unrecognized
quality `mediocre` ranks 0 like `poor` and replaces the strictly
higher-ranked `good` — but the repository script's inline rollup, whose
condition the operator-precedence slip reshapes, keeps `good` on the same
input, so its aggregate is not the rank minimum the claim describes. -/
theorem claim4_quality_rollup_bug :
    qualityRank "mediocre" < qualityRank "good" ∧
    updateOverallCodeQuality 1 "good" "mediocre" = "mediocre" ∧
    updateQualityJs 1 "good" "mediocre" = "good" :=
  ⟨by decide, by decide, by decide⟩

/-- Claim C5 as stated fails on the pull-request script: its classifier
call has no try/catch, so the first batch's failure aborts the whole run
with the raised error — the second batch is never analyzed, no error line
is recorded, and no aggregate is produced. -/
theorem claim5_error_aborts_counterexample :
    prAnalyze [[exPatched], [exPatched]] 2
      (fun i => if i = 0 then Except.error "boom" else Except.ok ⟨0, ""⟩) =
      Except.error "boom" := rfl

/-- Claim C5 amended (holds for the repository script): when batch `j`'s
classifier call fails, the error is caught, slot `j` of the rationale trail
is that batch's explicit error line, the batch contributes zero weight (the
aggregate probability is the successful batches' weighted sum), and every
batch is still processed — one rationale line per batch. -/
theorem claim5_graceful_amended (input : List RepoFile)
    (oracle : Nat → Except String RepoVerdict) (j : Nat) (e : String)
    (hj : j < (repoBatches input).length) (he : oracle j = Except.error e) :
    (repoAnalyze input oracle).allRationales.length = (repoBatches input).length ∧
    (repoAnalyze input oracle).allRationales[j]? =
      some ("Batch " ++ toString (j + 1) ++ ": Error during analysis - " ++ e) ∧
    (repoAnalyze input oracle).overallAiProb =
      okWeightedSum (repoTotalFiles input) oracle (repoBatches input) 0 := by
  have hrats := repoAnalyzeLoop_rats (repoTotalFiles input) oracle (repoBatches input) 0
    ⟨0, [], "Unknown", []⟩
  have hprob := repoAnalyzeLoop_prob (repoTotalFiles input) oracle (repoBatches input) 0
    ⟨0, [], "Unknown", []⟩
  have hR : (repoAnalyze input oracle).allRationales =
      ratLines oracle (repoBatches input) 0 := by
    simpa [repoAnalyze] using hrats
  refine ⟨?_, ?_, by simpa [repoAnalyze] using hprob⟩
  · rw [hR]
    exact ratLines_length oracle (repoBatches input) 0
  · rw [hR]
    have hg := ratLines_get_error oracle (repoBatches input) 0 j e hj (by simpa using he)
    simpa using hg

theorem claim5_graceful_amended_witness :
    (repoAnalyze [exRepoFile] (fun _ => Except.error "boom")).allRationales.length =
        (repoBatches [exRepoFile]).length ∧
    (repoAnalyze [exRepoFile] (fun _ => Except.error "boom")).allRationales[0]? =
      some ("Batch " ++ toString (0 + 1) ++ ": Error during analysis - " ++ "boom") ∧
    (repoAnalyze [exRepoFile] (fun _ => Except.error "boom")).overallAiProb =
      okWeightedSum (repoTotalFiles [exRepoFile]) (fun _ => Except.error "boom")
        (repoBatches [exRepoFile]) 0 :=
  claim5_graceful_amended [exRepoFile] (fun _ => Except.error "boom") 0 "boom"
    (by decide) rfl

/-- Claim C6 as stated fails on the pull-request script: a rule whose
`when` text is `process.exit(1)` — outside the spec's expression grammar —
is accepted unvalidated by `parseRulesFromText`, and the rule loop hands
exactly that text to the JavaScript `eval` interpreter. -/
theorem claim6_eval_counterexample :
    (parseRulesFromText exInjectionText).map (fun r => r.when) = ["process.exit(1)"] ∧
    specConditionGrammarOk "process.exit(1)" = false ∧
    (prRuleLoop ⟨0, 0, false, false⟩ (fun _ _ => false)
      (parseRulesFromText exInjectionText)).1 = ["process.exit(1)"] :=
  ⟨by decide, by decide, by decide⟩

/-- Claim C6 amended (holds for the repository script's rule source): every
rule produced by `parseHumanReadableRules` carries one of eight hard-coded
conditions, each within the spec's expression grammar over the four context
variables — the condition is chosen from the section title and never taken
from the configuration text itself. -/
theorem claim6_grammar_amended (text : String) (r : HRRule)
    (hr : r ∈ parseHumanReadableRules text) :
    specConditionGrammarOk r.condition = true := by
  unfold parseHumanReadableRules at hr
  rcases List.mem_filterMap.mp hr with ⟨sec, _, hsec⟩
  dsimp only at hsec
  rcases hrCondition_grammar
      ((trimChars ((jsSplit ['\n'] (trimChars sec)).headD [])).asString) with hc | hc
  · rw [if_neg (by simpa using hc)] at hsec
    cases hsec
  · by_cases hne : hrCondition ((trimChars ((jsSplit ['\n'] (trimChars sec)).headD [])).asString) = ""
    · rw [if_neg (by simpa using hne)] at hsec
      cases hsec
    · rw [if_pos hne] at hsec
      injection hsec with hsec
      rw [← hsec]
      exact hc

theorem claim6_grammar_amended_witness :
    specConditionGrammarOk (HRRule.condition ⟨"High AI Confidence", "ai_prob > 0.8",
      "error", "some content flag this as an error"⟩) = true :=
  claim6_grammar_amended exHrText
    ⟨"High AI Confidence", "ai_prob > 0.8", "error",
      "some content flag this as an error"⟩ (by decide)

/-- Claim C7: no batch produced by `analyzeCodeBatches` holds more than
`MAX_FILES_PER_BATCH` files: the loop closes the current batch as soon as
it already holds `MAX_FILES_PER_BATCH` files before appending. -/
theorem claim7_file_count (input : List RepoFile) (b : List BatchEntry)
    (hb : b ∈ repoBatches input) : b.length ≤ MAX_FILES_PER_BATCH :=
  repoBatches_count input b hb

theorem claim7_file_count_witness :
    ([⟨"a.js", "x"⟩] : List BatchEntry).length ≤ MAX_FILES_PER_BATCH :=
  claim7_file_count [exRepoFile] [⟨"a.js", "x"⟩] (by decide)

/-- Claim C8 as stated fails on the pull-request script: when filtering
leaves zero files the run does not short-circuit — it completes normally
with zero batches (so the classifier is indeed never called, here enforced
by an oracle that would abort the run) but the rule evaluator still runs
over every parsed rule. -/
theorem claim8_no_short_circuit_counterexample :
    ([exNoPatch].filter hasPatch) = [] ∧
    (prPipeline [exNoPatch] (parseRulesFromText exRuleText)
      (fun _ => Except.error "classifier called") (fun _ _ => true)
      (fun _ => false) (fun _ => false)).toOption.map
        (fun r => (r.batches, r.evaluatedConds)) = some ([], ["ai_prob > 0.9"]) :=
  ⟨by decide, by decide⟩

/-- Claim C8 amended: the App script's `analyzePullRequest` short-circuits
on zero filtered files with the distinct terminal status `skipped`, making
no classifier call and no rule evaluation, whatever the rest of the
pipeline would have done; the pull-request script instead completes
normally on zero filtered files, producing no batches (hence no classifier
call) but still evaluating every parsed rule's condition. -/
theorem claim8_short_circuit_amended :
    (∀ rest : List PRFile → AppRunOutcome,
      analyzePullRequestGate [] rest =
        ⟨"skipped", some "No code files to analyze after filtering", 0, 0⟩) ∧
    (∀ (files : List PRFile) (rules : List JsRule)
        (classifier : Nat → Except String PRVerdict) (ev : String → EvalCtx → Bool)
        (testRe licRe : String → Bool),
      files.filter hasPatch = [] →
      (prPipeline files rules classifier ev testRe licRe).toOption.map
          (fun r => (r.batches, r.evaluatedConds)) =
        some ([], rules.map fun r => r.when)) := by
  constructor
  · intro rest
    rfl
  · intro files rules classifier ev testRe licRe hf
    have hb : prBatches files = [] := prBatches_eq_nil files hf
    unfold prPipeline
    rw [hb]
    simp [prAnalyze, prAnalyzeLoop, Except.toOption, prRuleLoop_conds]

theorem claim8_short_circuit_amended_witness :
    analyzePullRequestGate [] (fun _ => ⟨"completed", none, 1, 1⟩) =
      ⟨"skipped", some "No code files to analyze after filtering", 0, 0⟩ ∧
    (prPipeline [exNoPatch] (parseRulesFromText exRuleText)
      (fun _ => Except.error "classifier called") (fun _ _ => true)
      (fun _ => false) (fun _ => false)).toOption.map
        (fun r => (r.batches, r.evaluatedConds)) =
      some ([], (parseRulesFromText exRuleText).map fun r => r.when) :=
  ⟨claim8_short_circuit_amended.1 _,
   claim8_short_circuit_amended.2 [exNoPatch] (parseRulesFromText exRuleText)
     (fun _ => Except.error "classifier called") (fun _ _ => true)
     (fun _ => false) (fun _ => false) (by decide)⟩

/-- Claim C9: a completed pull-request run exits 0 exactly when no
`error`-severity rule triggered (warnings alone still exit 0), and exits
non-zero exactly when at least one `error`-severity rule triggered. -/
theorem claim9_exit_code (files : List PRFile) (rules : List JsRule)
    (classifier : Nat → Except String PRVerdict) (ev : String → EvalCtx → Bool)
    (testRe licRe : String → Bool) (r : PRRun)
    (h : prPipeline files rules classifier ev testRe licRe = Except.ok r) :
    (r.exitCode = 0 ↔
      ∀ ru ∈ rules, ¬(ru.severity = "error" ∧ ev ru.when r.ctx = true)) ∧
    (r.exitCode ≠ 0 ↔
      ∃ ru ∈ rules, ru.severity = "error" ∧ ev ru.when r.ctx = true) := by
  simp only [prPipeline] at h
  cases hA : prAnalyze (prBatches files) files.length classifier with
  | error e =>
    rw [hA] at h
    cases h
  | ok pr =>
    obtain ⟨prob, rats⟩ := pr
    rw [hA] at h
    dsimp only at h
    injection h with h
    subst h
    dsimp only
    have hiff := prRuleLoop_failures_nil
      ⟨prob, prLinesAdded files, prTestsChanged files testRe,
        prLicenseComment files licRe⟩ ev rules
    constructor
    · rw [ite_isEmpty_eq_zero]
      exact hiff
    · rw [ne_eq, ite_isEmpty_eq_zero]
      constructor
      · intro hne
        have hnot := mt hiff.mpr hne
        push_neg at hnot
        rcases hnot with ⟨ru, hru, hcon⟩
        exact ⟨ru, hru, hcon⟩
      · rintro ⟨ru, hru, hsev, hev⟩ hnil
        exact (hiff.mp hnil ru hru) ⟨hsev, hev⟩

theorem claim9_exit_code_witness :
    ((prRunOf [] [] (fun _ => Except.ok ⟨0, ""⟩) (fun _ _ => false)
        (fun _ => false) (fun _ => false)).exitCode = 0 ↔
      ∀ ru ∈ ([] : List JsRule), ¬(ru.severity = "error" ∧ (false : Bool) = true)) ∧
    ((prRunOf [] [] (fun _ => Except.ok ⟨0, ""⟩) (fun _ _ => false)
        (fun _ => false) (fun _ => false)).exitCode ≠ 0 ↔
      ∃ ru ∈ ([] : List JsRule), ru.severity = "error" ∧ (false : Bool) = true) :=
  claim9_exit_code [] [] (fun _ => Except.ok ⟨0, ""⟩) (fun _ _ => false)
    (fun _ => false) (fun _ => false) _ rfl

/-- Claim C10: in a completed pull-request run the chat notification is
attempted exactly when the percentage score — `toFixed(1)` of 100 times the
aggregated probability — strictly exceeds 55; at a score of 55 or below no
webhook call is made at all. -/
theorem claim10_slack_threshold (files : List PRFile) (rules : List JsRule)
    (classifier : Nat → Except String PRVerdict) (ev : String → EvalCtx → Bool)
    (testRe licRe : String → Bool) (r : PRRun)
    (h : prPipeline files rules classifier ev testRe licRe = Except.ok r) :
    (r.slackAttempted = true ↔ 55 < r.score) ∧
    (r.score ≤ 55 → r.slackAttempted = false) ∧
    r.score = toFixed1 (r.overallAiProb * 100) := by
  simp only [prPipeline] at h
  cases hA : prAnalyze (prBatches files) files.length classifier with
  | error e =>
    rw [hA] at h
    cases h
  | ok pr =>
    obtain ⟨prob, rats⟩ := pr
    rw [hA] at h
    dsimp only at h
    injection h with h
    subst h
    exact ⟨decide_eq_true_iff, fun hle => decide_eq_false (not_lt.mpr hle), rfl⟩

theorem claim10_slack_threshold_witness :
    ((prRunOf [exPatched] [] (fun _ => Except.ok ⟨1, "r"⟩) (fun _ _ => false)
        (fun _ => false) (fun _ => false)).slackAttempted = true ↔
      55 < (prRunOf [exPatched] [] (fun _ => Except.ok ⟨1, "r"⟩) (fun _ _ => false)
        (fun _ => false) (fun _ => false)).score) ∧
    ((prRunOf [exPatched] [] (fun _ => Except.ok ⟨1, "r"⟩) (fun _ _ => false)
        (fun _ => false) (fun _ => false)).score ≤ 55 →
      (prRunOf [exPatched] [] (fun _ => Except.ok ⟨1, "r"⟩) (fun _ _ => false)
        (fun _ => false) (fun _ => false)).slackAttempted = false) ∧
    (prRunOf [exPatched] [] (fun _ => Except.ok ⟨1, "r"⟩) (fun _ _ => false)
        (fun _ => false) (fun _ => false)).score =
      toFixed1 ((prRunOf [exPatched] [] (fun _ => Except.ok ⟨1, "r"⟩) (fun _ _ => false)
        (fun _ => false) (fun _ => false)).overallAiProb * 100) :=
  claim10_slack_threshold [exPatched] [] (fun _ => Except.ok ⟨1, "r"⟩) (fun _ _ => false)
    (fun _ => false) (fun _ => false) _ rfl

end ReviewPipeline
